import Mathlib

/-!
# Verification of the go-trace ray tracer core

Shallow embedding of the core of the `go-trace` repository (files `vec.go`,
`bbox.go`, `ray.go`, `texture.go`, `geometry.go`, `material.go`, `camera.go`
and the scene renderer) together with proofs settling the frozen claims.

Modelling conventions:
* `float64` values are modelled as exact rationals (`ℚ`) in the combinatorial
  development, and as reals (`ℝ`) where the source genuinely needs `math.Sqrt`
  (sphere intersection, vector norms).  Arithmetic is exact; rounding is not
  modelled.
* Go functions that can panic (nil dereference, division by zero, index out of
  range, unbounded recursion) are totalized with clearly marked junk values or
  `Option` results; every such spot carries a comment.  Claims are only
  evaluated away from those junk branches unless the claim is about the
  failure itself.
* `math/rand` draws are modelled as explicit streams/oracles: `rand.Intn(3)`
  inside `NewIndex` becomes an explicit list of axis picks, and the per-row
  generators of `Render` become a deterministic oracle, so that theorems
  quantify over all possible draws.
-/

set_option allowUnsafeReducibility true
set_option maxRecDepth 100000

attribute [local semireducible] Rat.add Rat.mul Rat.sub Rat.div Rat.neg Rat.inv

namespace GoTrace

/-- `Vec3` from `vec.go`: a 3-component vector over exact rationals. -/
structure Vec3 where
  x : ℚ
  y : ℚ
  z : ℚ
deriving DecidableEq

/-- `BLACK` color constant from `vec.go`. -/
def BLACK : Vec3 := ⟨0, 0, 0⟩

/-- `WHITE` color constant from `vec.go`. -/
def WHITE : Vec3 := ⟨1, 1, 1⟩

/-- `Vec3.Add` from `vec.go`. -/
def Vec3.add (u v : Vec3) : Vec3 := ⟨u.x + v.x, u.y + v.y, u.z + v.z⟩

/-- `Vec3.Sub` from `vec.go`. -/
def Vec3.sub (u v : Vec3) : Vec3 := ⟨u.x - v.x, u.y - v.y, u.z - v.z⟩

/-- `Vec3.Scale` from `vec.go`. -/
def Vec3.scale (u : Vec3) (t : ℚ) : Vec3 := ⟨t * u.x, t * u.y, t * u.z⟩

/-- `Vec3.Neg` from `vec.go`: `u.Scale(-1.0)`. -/
def Vec3.neg (u : Vec3) : Vec3 := u.scale (-1)

/-- `Vec3.Dot` from `vec.go`. -/
def Vec3.dot (u v : Vec3) : ℚ := u.x * v.x + u.y * v.y + u.z * v.z

/-- `Vec3.Mul` from `vec.go` (termwise product). -/
def Vec3.mul (u v : Vec3) : Vec3 := ⟨u.x * v.x, u.y * v.y, u.z * v.z⟩

/-- `Vec3.AsArray` from `vec.go`, as coordinate lookup by axis index
(`0 ↦ X`, `1 ↦ Y`, anything else `↦ Z`; the source only ever calls it with
indices `0,1,2` coming from `rand.Intn(3)`). -/
def Vec3.coord (u : Vec3) (axis : ℕ) : ℚ :=
  match axis with
  | 0 => u.x
  | 1 => u.y
  | _ => u.z

/-- `math.MaxFloat64`, exactly `(2^53 - 1) * 2^971`, written out as a
decimal literal so that kernel evaluation never has to unfold an
exponentiation; `maxFloat64_eq` certifies the value. -/
def maxFloat64 : ℚ := 179769313486231570814527423731704356798070567525844996598917476803157260780028538760589558632766878171540458953514382464234321326889464182768467546703537516986049910576551282076245490090389328944075868508455133942304583236903222948165808559332123348274797826204144723168738177180919299881250404026184124858368

/-- The literal above is the exact value of `math.MaxFloat64`. -/
theorem maxFloat64_eq : maxFloat64 = (2 ^ 53 - 1) * 2 ^ 971 := by
  unfold maxFloat64; norm_num

/-- `RandSource` field of `Ray` (`ray.go`): the per-ray `*rand.Rand` pointer,
modelled as a generator state (seed plus position in the seeded stream). -/
structure RandSrc where
  seed : ℤ
  pos : ℕ
deriving DecidableEq

/-- `Ray` from `ray.go`: origin, direction, time, and the embedded random
source. -/
structure Ray where
  origin : Vec3
  direction : Vec3
  time : ℚ
  randSource : RandSrc
deriving DecidableEq

/-- `Ray.At` from `ray.go`. -/
def Ray.at (r : Ray) (t : ℚ) : Vec3 := r.origin.add (r.direction.scale t)

/-- `Bbox` from `bbox.go`. -/
structure Bbox where
  min : Vec3
  max : Vec3
deriving DecidableEq

/-- Go's `math.Min` on exact rationals. -/
def mathMin (a b : ℚ) : ℚ := min a b

/-- Go's `math.Max` on exact rationals. -/
def mathMax (a b : ℚ) : ℚ := max a b

/-- `Bbox.Merge` from `bbox.go`: componentwise min of the `Min` corners and
componentwise max of the `Max` corners. -/
def Bbox.merge (b o : Bbox) : Bbox :=
  ⟨⟨mathMin b.min.x o.min.x, mathMin b.min.y o.min.y, mathMin b.min.z o.min.z⟩,
   ⟨mathMax b.max.x o.max.x, mathMax b.max.y o.max.y, mathMax b.max.z o.max.z⟩⟩

/-- One iteration of the axis loop in `Bbox.Hit` (`bbox.go`): compute
`inv = 1/d`, `t0 = (min-o)*inv`, `t1 = (max-o)*inv`, swap when `inv < 0`,
then tighten the running `[tMin, tMax]` interval.  Over `ℚ` the division
`1/0` yields the junk value `0` instead of the IEEE infinity; the claims
about this function are evaluated on rays whose direction components are
nonzero, where exact rational arithmetic agrees with the float semantics. -/
def slab (mn mx o d tMin tMax : ℚ) : ℚ × ℚ :=
  let inv := 1 / d
  let t0 := (mn - o) * inv
  let t1 := (mx - o) * inv
  let p := if inv < 0 then (t1, t0) else (t0, t1)
  (if p.1 > tMin then p.1 else tMin, if p.2 < tMax then p.2 else tMax)

/-- `Bbox.Hit` from `bbox.go`: the slab test.  The 3-iteration loop over
`AsArray` is unrolled; after each axis the code early-returns `false` when
the tightened interval satisfies `tMax <= tMin`. -/
def Bbox.hit (b : Bbox) (ray : Ray) (tMin tMax : ℚ) : Bool :=
  let i1 := slab b.min.x b.max.x ray.origin.x ray.direction.x tMin tMax
  if i1.2 ≤ i1.1 then false else
  let i2 := slab b.min.y b.max.y ray.origin.y ray.direction.y i1.1 i1.2
  if i2.2 ≤ i2.1 then false else
  let i3 := slab b.min.z b.max.z ray.origin.z ray.direction.z i2.1 i2.2
  if i3.2 ≤ i3.1 then false else true

/-- The data fields of `HitRecord` (`texture.go`) other than the `Material`
reference: distance along the ray, hit position, normal, texture
coordinates. -/
structure HitData where
  distance : ℚ
  position : Vec3
  normal : Vec3
  u : ℚ
  v : ℚ

/-- `Material` interface (`material.go`), as a record of its two methods.
`Scatter` receives the incoming ray and the hit record; none of the repo's
materials reads the record's `Material` field, so the embedding passes the
record's data fields (this also keeps the type strictly positive). -/
structure Material where
  scatterF : Ray → HitData → Bool × Vec3 × Ray
  emitF : ℚ → ℚ → Vec3 → Vec3

/-- `HitRecord` from `texture.go`.  The `Material` field is `none` for
records produced by bare geometry (`nil` interface value in Go) and is
filled in by `Actor.Hit`. -/
structure HitRecord where
  distance : ℚ
  position : Vec3
  normal : Vec3
  material : Option Material
  u : ℚ
  v : ℚ

/-- The data fields of a `HitRecord` (what `Scatter` actually consumes). -/
def HitRecord.hitData (rec : HitRecord) : HitData :=
  ⟨rec.distance, rec.position, rec.normal, rec.u, rec.v⟩

/-- The `Geometry` variants of `geometry.go` needed by the claims, as a
closed inductive: the three axis-aligned rectangles, and the `FlipFace`,
`Translate` and `RotateY` wrappers.  (`Sphere` involves `math.Sqrt` and is
embedded separately over `ℝ`; `Box`, `MovingSphere` and `Fog` are not
referenced by any claim.)  A `rotateY` value carries the fields of the Go
`RotateY` struct: the wrapped shape, the precomputed `sinTheta`/`cosTheta`,
the precomputed bounding box and the `hasBox` flag. -/
inductive Geom where
  | rectXY (x0 x1 y0 y1 k : ℚ)
  | rectXZ (x0 x1 z0 z1 k : ℚ)
  | rectYZ (y0 y1 z0 z1 k : ℚ)
  | flipFace (reversed : Geom)
  | translate (shape : Geom) (offset : Vec3)
  | rotateY (shape : Geom) (sinTheta cosTheta : ℚ) (bbox : Bbox) (hasBox : Bool)
deriving DecidableEq

/-- `Hit` for the embedded `Geometry` variants (`geometry.go`).
`(bool, *HitRecord)` results become `Option HitRecord`.

* `RectXY.Hit` (lines 163-178) and its two siblings: solve for the
  plane-crossing parameter, reject when `t < tMin || t > tMax`, reject when
  outside the 2D extent, otherwise return the record with the fixed-axis
  unit normal.  Over `ℚ` a zero direction component makes `t` the junk value
  `0` instead of an IEEE infinity; claims use rays that cross the plane.
* `FlipFace.Hit`: delegate, negate the normal of a non-nil record.
* `Translate.Hit`: offset the ray origin backward, delegate, offset the
  returned position forward.
* `RotateY.Hit` (lines 382-407): rotate origin/direction into object space,
  delegate, rotate position/normal back; the returned record is rebuilt from
  only `Distance`, `Position` and `Normal` (so `U`, `V` and `Material` are
  Go zero values). -/
def Geom.hit : Geom → Ray → ℚ → ℚ → Option HitRecord
  | .rectXY x0 x1 y0 y1 k, ray, tMin, tMax =>
    let t := (k - ray.origin.z) / ray.direction.z
    if t < tMin ∨ t > tMax then none else
    let x := ray.origin.x + t * ray.direction.x
    let y := ray.origin.y + t * ray.direction.y
    if x < x0 ∨ x > x1 ∨ y < y0 ∨ y > y1 then none else
    some ⟨t, ray.at t, ⟨0, 0, 1⟩, none, (x - x0) / (x1 - x0), (y - y0) / (y1 - y0)⟩
  | .rectXZ x0 x1 z0 z1 k, ray, tMin, tMax =>
    let t := (k - ray.origin.y) / ray.direction.y
    if t < tMin ∨ t > tMax then none else
    let x := ray.origin.x + t * ray.direction.x
    let z := ray.origin.z + t * ray.direction.z
    if x < x0 ∨ x > x1 ∨ z < z0 ∨ z > z1 then none else
    some ⟨t, ray.at t, ⟨0, 1, 0⟩, none, (x - x0) / (x1 - x0), (z - z0) / (z1 - z0)⟩
  | .rectYZ y0 y1 z0 z1 k, ray, tMin, tMax =>
    let t := (k - ray.origin.x) / ray.direction.x
    if t < tMin ∨ t > tMax then none else
    let y := ray.origin.y + t * ray.direction.y
    let z := ray.origin.z + t * ray.direction.z
    if y < y0 ∨ y > y1 ∨ z < z0 ∨ z > z1 then none else
    some ⟨t, ray.at t, ⟨1, 0, 0⟩, none, (y - y0) / (y1 - y0), (z - z0) / (z1 - z0)⟩
  | .flipFace g, ray, tMin, tMax =>
    match g.hit ray tMin tMax with
    | some rec => some { rec with normal := rec.normal.scale (-1) }
    | none => none
  | .translate g offset, ray, tMin, tMax =>
    let movedRay : Ray := ⟨ray.origin.sub offset, ray.direction, ray.time, ray.randSource⟩
    match g.hit movedRay tMin tMax with
    | some rec => some { rec with position := rec.position.add offset }
    | none => none
  | .rotateY g sinTheta cosTheta _ _, ray, tMin, tMax =>
    let origin : Vec3 := ⟨cosTheta * ray.origin.x - sinTheta * ray.origin.z,
      ray.origin.y, sinTheta * ray.origin.x + cosTheta * ray.origin.z⟩
    let direction : Vec3 := ⟨cosTheta * ray.direction.x - sinTheta * ray.direction.z,
      ray.direction.y, sinTheta * ray.direction.x + cosTheta * ray.direction.z⟩
    let rotatedRay : Ray := ⟨origin, direction, ray.time, ray.randSource⟩
    match g.hit rotatedRay tMin tMax with
    | some rec =>
      let pos : Vec3 := ⟨cosTheta * rec.position.x - sinTheta * rec.position.z,
        rec.position.y, -sinTheta * rec.position.x + cosTheta * rec.position.z⟩
      let n : Vec3 := ⟨cosTheta * rec.normal.x - sinTheta * rec.normal.z,
        rec.normal.y, -sinTheta * rec.normal.x + cosTheta * rec.normal.z⟩
      some ⟨rec.distance, pos, n, none, 0, 0⟩
    | none => none

/-- `Bound` for the embedded `Geometry` variants (`geometry.go`).
`(bool, *Bbox)` becomes `Option Bbox`.  The rectangles return a box
thickened by `1e-4` along their fixed axis; `RotateY.Bound` returns the
precomputed box when `hasBox` is set (Go returns `(r.hasBox, &r.bbox)`). -/
def Geom.bound : Geom → ℚ → ℚ → Option Bbox
  | .rectXY x0 x1 y0 y1 k, _, _ =>
    some ⟨⟨x0, y0, k - 1/10000⟩, ⟨x1, y1, k + 1/10000⟩⟩
  | .rectXZ x0 x1 z0 z1 k, _, _ =>
    some ⟨⟨x0, k - 1/10000, z0⟩, ⟨x1, k + 1/10000, z1⟩⟩
  | .rectYZ y0 y1 z0 z1 k, _, _ =>
    some ⟨⟨k - 1/10000, y0, z0⟩, ⟨k + 1/10000, y1, z1⟩⟩
  | .flipFace g, startTime, endTime => g.bound startTime endTime
  | .translate g offset, startTime, endTime =>
    match g.bound startTime endTime with
    | some bbox => some ⟨bbox.min.add offset, bbox.max.add offset⟩
    | none => none
  | .rotateY _ _ _ bbox hasBox, _, _ => if hasBox then some bbox else none

/-- `Actor` from `texture.go`: a shape paired with a material. -/
structure Actor where
  shape : Geom
  material : Material

/-- `Actor.Hit` from `texture.go`: delegate to the shape and stamp the
actor's material into the record. -/
def Actor.hit (a : Actor) (ray : Ray) (tMin tMax : ℚ) : Option HitRecord :=
  match a.shape.hit ray tMin tMax with
  | some rec => some { rec with material := some a.material }
  | none => none

/-- `Actor.Bound` from `texture.go`. -/
def Actor.bound (a : Actor) (startTime endTime : ℚ) : Option Bbox :=
  a.shape.bound startTime endTime

/-- `Collection` from `texture.go`. -/
abbrev Collection := List Actor

/-- `Collection.Hit` from `texture.go` (lines 105-119): linear scan keeping
the closest record, narrowing `closestHit` after each hit. -/
def collectionHit (c : Collection) (ray : Ray) (tMin tMax : ℚ) : Option HitRecord :=
  let step := fun (acc : ℚ × Option HitRecord) (a : Actor) =>
    match a.hit ray tMin acc.1 with
    | some rec => (rec.distance, some rec)
    | none => acc
  (c.foldl step (tMax, none)).2

/-- A throwaway ray used only inside junk values that model Go panics. -/
def junkRay : Ray := ⟨BLACK, BLACK, 0, ⟨0, 0⟩⟩

/-- A material with no behaviour, used only inside junk values. -/
def junkMaterial : Material := ⟨fun _ _ => (false, BLACK, junkRay), fun _ _ _ => BLACK⟩

/-- Junk actor standing for the result of an out-of-range slice access
(a Go runtime panic); never reached on the valid inputs the claims use. -/
def junkActor : Actor := ⟨.rectXY 0 0 0 0 0, junkMaterial⟩

/-- Junk box standing for the nil-pointer dereference in `NewIndex` when a
child has no bounding box (flagged by a TODO in `texture.go`); never reached
when all indexed actors are boundable. -/
def junkBox : Bbox := ⟨⟨0, 0, 0⟩, ⟨0, 0, 0⟩⟩

/-- `world[i]` (Go slice indexing; out of range panics, totalized with
`junkActor`). -/
def getActor (world : Collection) (i : ℕ) : Actor := (world.get? i).getD junkActor

/-- The comparison function produced by `Collection.Comparator`
(`texture.go` lines 146-157), applied to two actors: compare the bounding
box `Min` coordinates on the chosen axis.  Go panics ("no bounding box")
for an unbounded actor; totalized with the junk key `0` — all claims sort
boundable actors only. -/
def actorLess (startTime endTime : ℚ) (axis : ℕ) (a b : Actor) : Bool :=
  let leftKey := match a.bound startTime endTime with
    | some box => box.min.coord axis
    | none => 0
  let rightKey := match b.bound startTime endTime with
    | some box => box.min.coord axis
    | none => 0
  leftKey < rightKey

/-- Insert into a sorted list, keeping earlier elements on ties. -/
def insertBy (lt : Actor → Actor → Bool) (a : Actor) : List Actor → List Actor
  | [] => [a]
  | b :: rest => if lt a b then a :: b :: rest else b :: insertBy lt a rest

/-- Model of `sort.Slice(world, comparator)` in `NewIndex` (`texture.go`
line 184): sorts the **entire** slice — not just the `[start, end]`
sub-range — by the comparator (the adjacent TODO in the source asks
"does this sort the view or the slice ?"; it sorts the slice).  Go's
`sort.Slice` is an unstable pattern-defeating quicksort; it is modelled by
insertion sort, which produces the same result whenever the sort keys are
pairwise distinct, as they are in every concrete input used below. -/
def sortActors (lt : Actor → Actor → Bool) : List Actor → List Actor
  | [] => []
  | a :: rest => insertBy lt a (sortActors lt rest)

/-- `Index` from `texture.go` plus the `Geometry` values reachable from its
`left`/`right` fields.  `NewIndex` only ever stores an `Actor` or another
`Index` there, so the embedding closes the interface over those two cases. -/
inductive IndexGeom where
  | actor (a : Actor)
  | node (box : Bbox) (left right : IndexGeom)

/-- `Hit` on the tree (`Index.Hit`, `texture.go` lines 198-213, with
`Actor.Hit` at the leaves): prune when the node box misses; query the left
child; narrow `tMax` to the left hit's distance; query the right child; a
right hit wins, otherwise the left result stands. -/
def IndexGeom.hit : IndexGeom → Ray → ℚ → ℚ → Option HitRecord
  | .actor a, ray, tMin, tMax => a.hit ray tMin tMax
  | .node box l r, ray, tMin, tMax =>
    if !(box.hit ray tMin tMax) then none
    else
      let recordLeft := l.hit ray tMin tMax
      let tMax' := match recordLeft with
        | some rec => rec.distance
        | none => tMax
      match r.hit ray tMin tMax' with
      | some rec => some rec
      | none => recordLeft

/-- `Bound` on the tree (`Index.Bound` returns the stored box;
`Actor.Bound` delegates to the shape). -/
def IndexGeom.bound : IndexGeom → ℚ → ℚ → Option Bbox
  | .actor a, startTime, endTime => a.bound startTime endTime
  | .node box _ _, _, _ => some box

/-- The common tail of `NewIndex`: `idx.box = leftBox.Merge(*rightBox)`
computed from the children's bounds (nil boxes — the TODO'd missing error
handling — totalized with `junkBox`). -/
def mkIndexNode (left right : IndexGeom) (startTime endTime : ℚ) : IndexGeom :=
  IndexGeom.node (((left.bound startTime endTime).getD junkBox).merge
    ((right.bound startTime endTime).getD junkBox)) left right

/-- `NewIndex` from `texture.go` (lines 167-195), with the two sources of
effects made explicit: the slice mutation performed by `sort.Slice` is
returned alongside the tree (recursive calls sort the whole backing array,
which the caller then observes), and the `rand.Intn(3)` axis draws are
consumed from an explicit list (head = next draw, default 0).  The `fuel`
parameter bounds the recursion depth: `newIndex` below supplies fuel equal
to the span, which suffices because both children of a span-`n` node have
span at most `n - 1`; fuel exhaustion (or a call with `end < start`, on
which the Go code recurses forever) yields a junk leaf. -/
def newIndexAux : ℕ → Collection → ℕ → ℕ → ℚ → ℚ → List ℕ →
    IndexGeom × Collection × List ℕ
  | 0, world, _, _, _, _, axes => (IndexGeom.actor junkActor, world, axes)
  | fuel + 1, world, start, end_, startTime, endTime, axes =>
    let axis := axes.headD 0
    let rest := axes.tail
    if end_ = start then
      let leaf := IndexGeom.actor (getActor world start)
      (mkIndexNode leaf leaf startTime endTime, world, rest)
    else if end_ = start + 1 then
      let a := getActor world start
      let b := getActor world (start + 1)
      if actorLess startTime endTime axis a b then
        (mkIndexNode (IndexGeom.actor a) (IndexGeom.actor b) startTime endTime, world, rest)
      else
        (mkIndexNode (IndexGeom.actor b) (IndexGeom.actor a) startTime endTime, world, rest)
    else if end_ < start then
      (IndexGeom.actor junkActor, world, rest)
    else
      let sorted := sortActors (actorLess startTime endTime axis) world
      let span := end_ - start + 1
      let mid := start + span / 2
      let leftRes := newIndexAux fuel sorted start mid startTime endTime rest
      let rightRes := newIndexAux fuel leftRes.2.1 mid end_ startTime endTime leftRes.2.2
      (mkIndexNode leftRes.1 rightRes.1 startTime endTime, rightRes.2.1, rightRes.2.2)

/-- `NewIndex(world, start, end, startTime, endTime)` with an explicit
stream of `rand.Intn(3)` draws. -/
def newIndex (world : Collection) (start end_ : ℕ) (startTime endTime : ℚ)
    (axes : List ℕ) : IndexGeom × Collection × List ℕ :=
  newIndexAux (end_ + 1 - start) world start end_ startTime endTime axes

/-- The shapes at the leaves of a built index, left to right.  (Shapes
rather than actors so that equality stays decidable; the concrete
collections below give every actor the same material.) -/
def IndexGeom.leafShapes : IndexGeom → List Geom
  | .actor a => [a.shape]
  | .node _ l r => l.leafShapes ++ r.leafShapes

/-! ### Concrete scene used to exercise `NewIndex`

Five boundable actors whose bounding-box `Min` coordinates are pairwise
distinct on every axis (so any correct sort, stable or not, produces the
same order), chosen so that the x-order and y-order agree
(`A,B,C,D,E`) while the z-order puts `E` first (`E,A,B,C,D`). -/

/-- Shape of actor A. -/
def gA : Geom := .rectXY 0 (1/2) 0 (1/2) 10

/-- Shape of actor B. -/
def gB : Geom := .rectXY 1 (3/2) 1 (3/2) 11

/-- Shape of actor C. -/
def gC : Geom := .rectXY 2 (5/2) 2 (5/2) 12

/-- Shape of actor D. -/
def gD : Geom := .rectXY 3 (7/2) 3 (7/2) 13

/-- Shape of actor E: the only actor near the plane `z = 1`. -/
def gE : Geom := .rectXY 4 (9/2) 4 (9/2) 1

/-- A five-actor collection (all sharing one material). -/
def ex5 : Collection := [⟨gA, junkMaterial⟩, ⟨gB, junkMaterial⟩,
  ⟨gC, junkMaterial⟩, ⟨gD, junkMaterial⟩, ⟨gE, junkMaterial⟩]

/-- One possible sequence of `rand.Intn(3)` draws for
`NewIndex(ex5, 0, 4, …)`: the root sorts on x, the left child `[0,2]` sorts
on y, the right child `[2,4]` sorts on z (the four remaining draws feed the
span-2 base cases). -/
def exAxes : List ℕ := [0, 1, 0, 0, 2, 0, 0]

/-- A ray that pierces actor E's rectangle at parameter `t = 1` and misses
the other four rectangles; all direction components are nonzero so every
slab-test division is by a nonzero float. -/
def exRay : Ray := ⟨⟨17/4, 17/4, 0⟩, ⟨1/1000, 1/1000, 1⟩, 0, ⟨0, 0⟩⟩

/-- Claim C1 (code bug): for the five-actor collection `ex5`, the BVH that
`NewIndex` builds under the axis draws `exAxes` disagrees with the
brute-force linear scan: `Collection.Hit` finds the hit on actor E at
distance 1, while `Index.Hit` reports no hit at all, because the
whole-slice re-sorts performed by the recursive calls removed E from every
leaf range.  Index traversal is **not** behaviour-preserving. -/
theorem newIndex_hit_disagrees_with_collectionHit :
    ((collectionHit ex5 exRay (1/1000) 1000).map HitRecord.distance = some 1)
    ∧ ((newIndex ex5 0 4 0 1 exAxes).1.hit exRay (1/1000) 1000).isNone = true := by
  constructor
  · decide
  · decide

/-- Claim C2 (code bug): evaluating `NewIndex(ex5, 0, 4, …)` under the axis
draws `exAxes` shows the construction does **not** sort only the sub-range
and does **not** split into disjoint covering halves: the leaves of the
built tree are `A,B,B,C,B,C,C,D` — actor E is dropped entirely and B and C
are tripled — because `sort.Slice(world, …)` in each recursive call
re-sorts the whole slice and the inclusive split `[start,mid]`,`[mid,end]`
overlaps at `mid`. -/
theorem newIndex_leaves_not_a_partition_of_span :
    ((newIndex ex5 0 4 0 1 exAxes).1.leafShapes = [gA, gB, gB, gC, gB, gC, gC, gD])
    ∧ gE ∈ ex5.map Actor.shape
    ∧ gE ∉ (newIndex ex5 0 4 0 1 exAxes).1.leafShapes := by
  refine ⟨by decide, by decide, by decide⟩

/-! ### The slab test (claim C3) -/

/-- The point lies strictly inside the open box. -/
def Bbox.strictlyContains (b : Bbox) (p : Vec3) : Prop :=
  b.min.x < p.x ∧ p.x < b.max.x ∧ b.min.y < p.y ∧ p.y < b.max.y ∧
    b.min.z < p.z ∧ p.z < b.max.z

/-- The point lies in the closed box. -/
def Bbox.contains (b : Bbox) (p : Vec3) : Prop :=
  b.min.x ≤ p.x ∧ p.x ≤ b.max.x ∧ b.min.y ≤ p.y ∧ p.y ≤ b.max.y ∧
    b.min.z ≤ p.z ∧ p.z ≤ b.max.z

instance (b : Bbox) (p : Vec3) : Decidable (b.strictlyContains p) := by
  unfold Bbox.strictlyContains
  infer_instance

instance (b : Bbox) (p : Vec3) : Decidable (b.contains p) := by
  unfold Bbox.contains
  infer_instance

/-- A slab step never loosens the running interval: lower end only grows. -/
theorem slab_fst_ge (mn mx o d m M : ℚ) : m ≤ (slab mn mx o d m M).1 := by
  unfold slab
  dsimp only
  split_ifs with h <;> simp_all <;> linarith

/-- A slab step never loosens the running interval: upper end only shrinks. -/
theorem slab_snd_le (mn mx o d m M : ℚ) : (slab mn mx o d m M).2 ≤ M := by
  unfold slab
  dsimp only
  split_ifs with h <;> simp_all <;> linarith

/-- Membership in the tightened interval, for a nonzero direction
component: `t` lies strictly inside the slab-tightened interval iff it lay
strictly inside the incoming interval and the ray coordinate at `t` is
strictly between the two slab planes. -/
theorem slab_mem (mn mx o d m M : ℚ) (hd : d ≠ 0) (t : ℚ) :
    ((slab mn mx o d m M).1 < t ∧ t < (slab mn mx o d m M).2) ↔
      (m < t ∧ t < M ∧ mn < o + t * d ∧ o + t * d < mx) := by
  rcases hd.lt_or_lt with hneg | hpos
  · have hinv : (1 : ℚ) / d < 0 := by
      exact div_neg_of_pos_of_neg one_pos hneg
    simp only [slab, if_pos hinv]
    have h1 : ((mx - o) * (1 / d) < t) ↔ o + t * d < mx := by
      rw [mul_one_div, div_lt_iff_of_neg hneg]
      constructor <;> intro h <;> nlinarith
    have h2 : (t < (mn - o) * (1 / d)) ↔ mn < o + t * d := by
      rw [mul_one_div, lt_div_iff_of_neg hneg]
      constructor <;> intro h <;> nlinarith
    constructor
    · rintro ⟨ha, hb⟩
      split_ifs at ha hb with hc hd' <;>
        refine ⟨by linarith, by linarith, ?_, ?_⟩ <;>
          first
            | exact h2.mp hb
            | exact h1.mp ha
            | (apply h2.mp; linarith)
            | (apply h1.mp; linarith)
    · rintro ⟨ha, hb, hc, hd'⟩
      have hga := h1.mpr hd'
      have hgb := h2.mpr hc
      constructor
      · split_ifs with h <;> linarith
      · split_ifs with h <;> linarith
  · have hinv : ¬ ((1 : ℚ) / d < 0) := by
      push_neg
      positivity
    simp only [slab, if_neg hinv]
    have h1 : ((mn - o) * (1 / d) < t) ↔ mn < o + t * d := by
      rw [mul_one_div, div_lt_iff₀ hpos]
      constructor <;> intro h <;> nlinarith
    have h2 : (t < (mx - o) * (1 / d)) ↔ o + t * d < mx := by
      rw [mul_one_div, lt_div_iff₀ hpos]
      constructor <;> intro h <;> nlinarith
    constructor
    · rintro ⟨ha, hb⟩
      split_ifs at ha hb with hc hd' <;>
        refine ⟨by linarith, by linarith, ?_, ?_⟩ <;>
          first
            | exact h1.mp ha
            | exact h2.mp hb
            | (apply h1.mp; linarith)
            | (apply h2.mp; linarith)
    · rintro ⟨ha, hb, hc, hd'⟩
      have hga := h1.mpr hc
      have hgb := h2.mpr hd'
      constructor
      · split_ifs with h <;> linarith
      · split_ifs with h <;> linarith

/-- Claim C3 (amended): for every box and every ray all of whose direction
components are nonzero, the slab test `Bbox.Hit` returns `true` iff some
parameter strictly between `tMin` and `tMax` places the ray strictly inside
the open box.  (The interval-emptiness rule `tMax ≤ tMin` means grazing
contact with the closed box reports a miss — see the counterexample —
and taking values strictly between the slab planes is what the per-axis
tightening amounts to.) -/
theorem bboxHit_iff_strictly_inside (b : Bbox) (r : Ray) (tMin tMax : ℚ)
    (hx : r.direction.x ≠ 0) (hy : r.direction.y ≠ 0) (hz : r.direction.z ≠ 0) :
    b.hit r tMin tMax = true ↔
      ∃ t, tMin < t ∧ t < tMax ∧ b.strictlyContains (r.at t) := by
  have hat : ∀ t : ℚ, r.at t =
      ⟨r.origin.x + t * r.direction.x, r.origin.y + t * r.direction.y,
        r.origin.z + t * r.direction.z⟩ := by
    intro t
    simp [Ray.at, Vec3.add, Vec3.scale]
  set I1 := slab b.min.x b.max.x r.origin.x r.direction.x tMin tMax with hI1
  set I2 := slab b.min.y b.max.y r.origin.y r.direction.y I1.1 I1.2 with hI2
  set I3 := slab b.min.z b.max.z r.origin.z r.direction.z I2.1 I2.2 with hI3
  have hdef : b.hit r tMin tMax = true ↔
      (¬ (I1.2 ≤ I1.1) ∧ ¬ (I2.2 ≤ I2.1) ∧ ¬ (I3.2 ≤ I3.1)) := by
    simp only [Bbox.hit, ← hI1, ← hI2, ← hI3]
    split_ifs with h1 h2 h3 <;> simp_all
  constructor
  · intro h
    obtain ⟨_, _, h3⟩ := hdef.mp h
    obtain ⟨t, ht1, ht2⟩ := exists_between (not_le.mp h3)
    have hz3 := slab_mem b.min.z b.max.z r.origin.z r.direction.z I2.1 I2.2 hz t
    rw [← hI3] at hz3
    obtain ⟨hb1, hb2, hzin1, hzin2⟩ := hz3.mp ⟨ht1, ht2⟩
    have hy2 := slab_mem b.min.y b.max.y r.origin.y r.direction.y I1.1 I1.2 hy t
    rw [← hI2] at hy2
    obtain ⟨hc1, hc2, hyin1, hyin2⟩ := hy2.mp ⟨hb1, hb2⟩
    have hx1 := slab_mem b.min.x b.max.x r.origin.x r.direction.x tMin tMax hx t
    rw [← hI1] at hx1
    obtain ⟨hd1, hd2, hxin1, hxin2⟩ := hx1.mp ⟨hc1, hc2⟩
    refine ⟨t, hd1, hd2, ?_⟩
    rw [hat]
    exact ⟨hxin1, hxin2, hyin1, hyin2, hzin1, hzin2⟩
  · rintro ⟨t, htMin, htMax, hin⟩
    rw [hat] at hin
    simp only [Bbox.strictlyContains] at hin
    obtain ⟨hxin1, hxin2, hyin1, hyin2, hzin1, hzin2⟩ := hin
    have m1 : I1.1 < t ∧ t < I1.2 := by
      rw [hI1]
      exact (slab_mem b.min.x b.max.x r.origin.x r.direction.x tMin tMax hx t).mpr
        ⟨htMin, htMax, hxin1, hxin2⟩
    have m2 : I2.1 < t ∧ t < I2.2 := by
      rw [hI2]
      exact (slab_mem b.min.y b.max.y r.origin.y r.direction.y I1.1 I1.2 hy t).mpr
        ⟨m1.1, m1.2, hyin1, hyin2⟩
    have m3 : I3.1 < t ∧ t < I3.2 := by
      rw [hI3]
      exact (slab_mem b.min.z b.max.z r.origin.z r.direction.z I2.1 I2.2 hz t).mpr
        ⟨m2.1, m2.2, hzin1, hzin2⟩
    exact hdef.mpr ⟨not_le.mpr (m1.1.trans m1.2), not_le.mpr (m2.1.trans m2.2),
      not_le.mpr (m3.1.trans m3.2)⟩

/-- A box with `Min ≤ Max` componentwise whose corner `(1,1,z)` is grazed
by the diagonal ray below: the parameter interval collapses to the single
point `t = 1`. -/
def grazeBox : Bbox := ⟨⟨0, 1, 0⟩, ⟨1, 2, 2⟩⟩

/-- The diagonal unit ray from the origin (all direction components
nonzero, so no division-by-zero is involved). -/
def grazeRay : Ray := ⟨⟨0, 0, 0⟩, ⟨1, 1, 1⟩, 0, ⟨0, 0⟩⟩

/-- Claim C3 counterexample: the ray's parametric line passes through the
(closed) box `grazeBox` within `[0, 10]` — at `t = 1` it touches the box at
the corner `(1,1,1)`, and `Min ≤ Max` holds componentwise — yet `Bbox.Hit`
returns `false`, because the tightened interval degenerates to a single
point and the `tMax ≤ tMin` check treats it as empty.  So "returns true iff
the line passes through the box within `[tMin,tMax]`" is false as stated. -/
theorem bboxHit_misses_grazing_contact :
    Bbox.hit grazeBox grazeRay 0 10 = false
    ∧ Bbox.contains grazeBox (grazeRay.at 1)
    ∧ (0 : ℚ) ≤ 1 ∧ (1 : ℚ) ≤ 10
    ∧ grazeBox.min.x ≤ grazeBox.max.x ∧ grazeBox.min.y ≤ grazeBox.max.y
    ∧ grazeBox.min.z ≤ grazeBox.max.z := by
  refine ⟨by decide, by decide, by decide, by decide, by decide, by decide, by decide⟩

/-- Witness for the amended C3 theorem: a concrete box/ray pair with all
direction components nonzero on which the characterization yields `true`. -/
theorem bboxHit_iff_strictly_inside_witness :
    Bbox.hit ⟨⟨0, 0, 0⟩, ⟨1, 1, 1⟩⟩ ⟨⟨-1/2, -1/2, -1/2⟩, ⟨1, 1, 1⟩, 0, ⟨0, 0⟩⟩ 0 10 = true := by
  refine (bboxHit_iff_strictly_inside _ _ 0 10 (by decide) (by decide) (by decide)).mpr
    ⟨1, by decide, by decide, by decide⟩

/-! ### `NewRotateY` and `RotateY.Hit` (claims C5 and C10) -/

/-- Modelled from the spec: `MinCoord`, called by `NewRotateY`
(`geometry.go` lines 366-367), is not among the provided source files; its
name and its use to accumulate `minPoint` (for the spec's "extreme
envelope" of the rotated corners) determine it as the componentwise
minimum of two vectors. -/
def MinCoord (u v : Vec3) : Vec3 :=
  ⟨mathMin u.x v.x, mathMin u.y v.y, mathMin u.z v.z⟩

/-- The corner-iteration order of the `NewRotateY` triple loop:
`(i,j,k)` with `i` outermost, each in `{0,1}`. -/
def rotateCorners : List (ℚ × ℚ × ℚ) :=
  [(0, 0, 0), (0, 0, 1), (0, 1, 0), (0, 1, 1),
   (1, 0, 0), (1, 0, 1), (1, 1, 0), (1, 1, 1)]

/-- `NewRotateY` from `geometry.go` (lines 346-379).  The trigonometric
prelude (`theta = angle·π/180`, `sinTheta = sin θ`, `cosTheta = cos θ`) is
transcendental, so the embedding takes the computed `sinTheta`/`cosTheta`
values as its arguments; everything after that line is rational and is
modelled exactly.  `shape.Bound(0, 1)` with a `false` flag would make the
corner loop dereference a nil box pointer (a Go panic), totalized with
`junkBox`; the claims use bounded shapes.  Note both `minPoint` **and**
`maxPoint` are accumulated with `MinCoord`, exactly as in the source. -/
def newRotateY (shape : Geom) (sinTheta cosTheta : ℚ) : Geom :=
  let bres := shape.bound 0 1
  let hasBox := bres.isSome
  let box := bres.getD junkBox
  let step := fun (acc : Vec3 × Vec3) (c : ℚ × ℚ × ℚ) =>
    let x := c.1 * box.max.x + (1 - c.1) * box.min.x
    let y := c.2.1 * box.max.y + (1 - c.2.1) * box.min.y
    let z := c.2.2 * box.max.z + (1 - c.2.2) * box.min.z
    let tmpvec : Vec3 := ⟨cosTheta * x + sinTheta * z, y, -sinTheta * x + cosTheta * z⟩
    (MinCoord acc.1 tmpvec, MinCoord acc.2 tmpvec)
  let pts := rotateCorners.foldl step
    (⟨maxFloat64, maxFloat64, maxFloat64⟩, ⟨-maxFloat64, -maxFloat64, -maxFloat64⟩)
  Geom.rotateY shape sinTheta cosTheta ⟨pts.1, pts.2⟩ hasBox

/-- Claim C5 (code bug): rotating the unit rectangle by angle 0
(`sinTheta = 0`, `cosTheta = 1`) produces a box whose `Min` is the correct
corner minimum but whose `Max` is the `(-MaxFloat64, …)` initializer — the
`maxPoint` accumulator uses `MinCoord` instead of a max, so it never moves —
and the rotated corner `(1, 1, 1/10000)` of the wrapped shape's bound lies
outside the returned box. -/
theorem newRotateY_box_max_is_minus_maxFloat :
    newRotateY (Geom.rectXY 0 1 0 1 0) 0 1 =
      Geom.rotateY (Geom.rectXY 0 1 0 1 0) 0 1
        ⟨⟨0, 0, -(1/10000)⟩, ⟨-maxFloat64, -maxFloat64, -maxFloat64⟩⟩ true
    ∧ (Geom.rectXY 0 1 0 1 0).bound 0 1 =
        some ⟨⟨0, 0, -(1/10000)⟩, ⟨1, 1, 1/10000⟩⟩
    ∧ ¬ Bbox.contains ⟨⟨0, 0, -(1/10000)⟩, ⟨-maxFloat64, -maxFloat64, -maxFloat64⟩⟩
        ⟨1, 1, 1/10000⟩ := by
  refine ⟨by decide, by decide, by decide⟩

/-- Claim C10: a hit through `RotateY` keeps the wrapped record's distance
but rebuilds the record from `Distance`, `Position`, `Normal` only, so the
returned record always carries `U = 0`, `V = 0` and no material. -/
theorem rotateYHit_drops_uv_and_material (shape : Geom) (sinTheta cosTheta : ℚ)
    (bbox : Bbox) (hasBox : Bool) (ray : Ray) (tMin tMax : ℚ) (rec : HitRecord)
    (h : (Geom.rotateY shape sinTheta cosTheta bbox hasBox).hit ray tMin tMax = some rec) :
    rec.u = 0 ∧ rec.v = 0 ∧ rec.material = none ∧
      ∃ rec0, shape.hit
          ⟨⟨cosTheta * ray.origin.x - sinTheta * ray.origin.z, ray.origin.y,
             sinTheta * ray.origin.x + cosTheta * ray.origin.z⟩,
           ⟨cosTheta * ray.direction.x - sinTheta * ray.direction.z, ray.direction.y,
             sinTheta * ray.direction.x + cosTheta * ray.direction.z⟩,
           ray.time, ray.randSource⟩ tMin tMax = some rec0
        ∧ rec.distance = rec0.distance := by
  simp only [Geom.hit] at h
  split at h
  case h_1 rec0 heq =>
    cases h
    exact ⟨rfl, rfl, rfl, rec0, heq, rfl⟩
  case h_2 heq =>
    cases h

/-- The concrete record returned by `RotateY.Hit` in the C10 witness. -/
def rotWitnessRec : HitRecord := ⟨1, ⟨1/2, 1/2, 1⟩, ⟨0, 0, 1⟩, none, 0, 0⟩

/-- The ray used in the C10 witness. -/
def rotWitnessRay : Ray := ⟨⟨1/2, 1/2, 0⟩, ⟨0, 0, 1⟩, 0, ⟨0, 0⟩⟩

/-- Witness for C10: a rectangle whose own hit record has `u = v = 1/4`,
wrapped in a `RotateY` by angle 0; the wrapper's record keeps distance 1
but zeroes `u`, `v` and the material. -/
theorem rotateYHit_drops_uv_and_material_witness :
    rotWitnessRec.u = 0 ∧ rotWitnessRec.v = 0 ∧ rotWitnessRec.material = none ∧
      ∃ rec0, (Geom.rectXY 0 2 0 2 1).hit
          ⟨⟨1 * rotWitnessRay.origin.x - 0 * rotWitnessRay.origin.z, rotWitnessRay.origin.y,
             0 * rotWitnessRay.origin.x + 1 * rotWitnessRay.origin.z⟩,
           ⟨1 * rotWitnessRay.direction.x - 0 * rotWitnessRay.direction.z,
             rotWitnessRay.direction.y,
             0 * rotWitnessRay.direction.x + 1 * rotWitnessRay.direction.z⟩,
           rotWitnessRay.time, rotWitnessRay.randSource⟩ 0 10 = some rec0
        ∧ rotWitnessRec.distance = rec0.distance :=
  rotateYHit_drops_uv_and_material (Geom.rectXY 0 2 0 2 1) 0 1 junkBox true
    rotWitnessRay 0 10 rotWitnessRec (by rfl)

/-! ### The integrator `Scene.rayColor` (claim C6) -/

/-- `Camera` from `camera.go`: the precomputed basis and viewport fields.
(`NewCamera`'s trigonometric prelude computes these from the look
parameters; the claims only concern how `RayTo` uses them.) -/
structure Camera where
  origin : Vec3
  horizontal : Vec3
  vertical : Vec3
  corner : Vec3
  u : Vec3
  v : Vec3
  w : Vec3
  lensRadius : ℚ
  tStart : ℚ
  tStop : ℚ
  aspectRatio : ℚ

/-- A camera whose fields are all zero, for scenes in claims that never
generate camera rays. -/
def junkCamera : Camera := ⟨BLACK, BLACK, BLACK, BLACK, BLACK, BLACK, BLACK, 0, 0, 0, 0⟩

/-- `Scene` from `geometry.go` (line 1457): the indexed world (`*Index`),
the camera, and the background color. -/
structure Scene where
  world : IndexGeom
  camera : Camera
  background : Vec3

/-- The recursion of `Scene.rayColor` (`geometry.go` lines 1473-1489) on
the number of remaining bounces.  Fuel `n` stands for a Go `depth` with
`depth.toNat = n`: the `depth <= 0` check is the `0` case, and each
recursive call decrements.  A record with no material would make Go call a
method on a nil interface (panic); totalized as black — unreachable for
records produced through `Actor.Hit`. -/
def rayColorNat (s : Scene) : ℕ → Ray → Vec3
  | 0, _ => BLACK
  | n + 1, ray =>
    match s.world.hit ray (1/1000) maxFloat64 with
    | some rec =>
      match rec.material with
      | some m =>
        let emitted := m.emitF rec.u rec.v rec.position
        let sc := m.scatterF ray rec.hitData
        if sc.1 then emitted.add (sc.2.1.mul (rayColorNat s n sc.2.2)) else emitted
      | none => BLACK
    | none => s.background

/-- `Scene.rayColor` with the Go `int` depth: `depth ≤ 0` returns black and
each bounce decrements the depth. -/
def Scene.rayColor (s : Scene) (ray : Ray) (depth : ℤ) : Vec3 :=
  rayColorNat s depth.toNat ray

/-- Claim C6: `rayColor` returns black when `depth ≤ 0`; otherwise, on the
nearest world hit in `(0.001, MaxFloat64)`, it returns `Emit(u,v,position)`
plus — only when the material scatters — the componentwise product of the
attenuation with the color of the scattered ray at `depth - 1`, the emitted
value alone when the material does not scatter, and the scene background
when nothing is hit.  (`Scene.rayColor` is a total function, so the
recursion terminates for every input: the depth strictly decreases.) -/
theorem rayColor_spec (s : Scene) :
    (∀ ray (depth : ℤ), depth ≤ 0 → s.rayColor ray depth = BLACK)
    ∧ (∀ ray (depth : ℤ) rec m, 0 < depth →
        s.world.hit ray (1/1000) maxFloat64 = some rec →
        rec.material = some m →
        (m.scatterF ray rec.hitData).1 = true →
        s.rayColor ray depth =
          (m.emitF rec.u rec.v rec.position).add
            ((m.scatterF ray rec.hitData).2.1.mul
              (s.rayColor (m.scatterF ray rec.hitData).2.2 (depth - 1))))
    ∧ (∀ ray (depth : ℤ) rec m, 0 < depth →
        s.world.hit ray (1/1000) maxFloat64 = some rec →
        rec.material = some m →
        (m.scatterF ray rec.hitData).1 = false →
        s.rayColor ray depth = m.emitF rec.u rec.v rec.position)
    ∧ (∀ ray (depth : ℤ), 0 < depth →
        s.world.hit ray (1/1000) maxFloat64 = none →
        s.rayColor ray depth = s.background) := by
  have hsucc : ∀ depth : ℤ, 0 < depth → depth.toNat = (depth - 1).toNat + 1 := by
    intro depth h
    omega
  refine ⟨?_, ?_, ?_, ?_⟩
  · intro ray depth h
    have h0 : depth.toNat = 0 := by omega
    simp [Scene.rayColor, h0, rayColorNat]
  · intro ray depth rec m hpos hhit hmat hscat
    unfold Scene.rayColor
    rw [hsucc depth hpos]
    simp only [rayColorNat, hhit, hmat, hscat, if_pos]
  · intro ray depth rec m hpos hhit hmat hscat
    unfold Scene.rayColor
    rw [hsucc depth hpos]
    simp only [rayColorNat, hhit, hmat, hscat, Bool.false_eq_true, if_false]
  · intro ray depth hpos hhit
    unfold Scene.rayColor
    rw [hsucc depth hpos]
    simp only [rayColorNat, hhit]

/-- Emissive, non-scattering material for the C6 witness. -/
def w6Mat : Material := ⟨fun _ _ => (false, WHITE, junkRay), fun u v _ => ⟨u + 1, v + 2, 3⟩⟩

/-- Always-scattering material for the C6 witness; it scatters back along
the incoming ray with unit attenuation. -/
def w6MatScat : Material := ⟨fun ray _ => (true, ⟨1, 1, 1⟩, ray), fun _ _ _ => BLACK⟩

/-- One-actor world (both index children point at the same actor, as the
span-1 base case of `NewIndex` produces) over the emissive material. -/
def w6World : IndexGeom :=
  .node ⟨⟨-10, -10, -10⟩, ⟨10, 10, 10⟩⟩ (.actor ⟨.rectXY 0 2 0 2 1, w6Mat⟩)
    (.actor ⟨.rectXY 0 2 0 2 1, w6Mat⟩)

/-- Same world over the scattering material. -/
def w6World2 : IndexGeom :=
  .node ⟨⟨-10, -10, -10⟩, ⟨10, 10, 10⟩⟩ (.actor ⟨.rectXY 0 2 0 2 1, w6MatScat⟩)
    (.actor ⟨.rectXY 0 2 0 2 1, w6MatScat⟩)

/-- Scene over `w6World` with a recognizable background color. -/
def w6Scene : Scene := ⟨w6World, junkCamera, ⟨1/2, 1/2, 1⟩⟩

/-- Scene over the scattering world. -/
def w6Scene2 : Scene := ⟨w6World2, junkCamera, ⟨1/2, 1/2, 1⟩⟩

/-- A ray hitting the rectangle at `t = 1` (all direction components
nonzero so the ℚ slab test is exact). -/
def w6HitRay : Ray := ⟨⟨1/2, 1/2, 0⟩, ⟨1/8, 1/8, 1⟩, 0, ⟨0, 0⟩⟩

/-- A ray pointing away from the rectangle. -/
def w6MissRay : Ray := ⟨⟨1/2, 1/2, 0⟩, ⟨1/8, 1/8, -1⟩, 0, ⟨0, 0⟩⟩

/-- The record `w6World` produces for `w6HitRay`. -/
def w6Rec : HitRecord := ⟨1, ⟨5/8, 5/8, 1⟩, ⟨0, 0, 1⟩, some w6Mat, 5/16, 5/16⟩

/-- The record `w6World2` produces for `w6HitRay`. -/
def w6Rec2 : HitRecord := ⟨1, ⟨5/8, 5/8, 1⟩, ⟨0, 0, 1⟩, some w6MatScat, 5/16, 5/16⟩

/-- Witness for C6, exercising all four branches of `rayColor_spec` at
concrete inputs: zero depth, an emitting hit, a miss, and a scattering
hit. -/
theorem rayColor_spec_witness :
    (w6Scene.rayColor w6HitRay 0 = BLACK)
    ∧ (w6Scene.rayColor w6HitRay 1 = w6Mat.emitF w6Rec.u w6Rec.v w6Rec.position)
    ∧ (w6Scene.rayColor w6MissRay 1 = w6Scene.background)
    ∧ (w6Scene2.rayColor w6HitRay 1 =
        (w6MatScat.emitF w6Rec2.u w6Rec2.v w6Rec2.position).add
          ((w6MatScat.scatterF w6HitRay w6Rec2.hitData).2.1.mul
            (w6Scene2.rayColor (w6MatScat.scatterF w6HitRay w6Rec2.hitData).2.2 (1 - 1)))) := by
  refine ⟨(rayColor_spec w6Scene).1 w6HitRay 0 le_rfl, ?_, ?_, ?_⟩
  · exact (rayColor_spec w6Scene).2.2.1 w6HitRay 1 w6Rec w6Mat one_pos (by rfl) rfl rfl
  · exact (rayColor_spec w6Scene).2.2.2 w6MissRay 1 one_pos (by rfl)
  · exact (rayColor_spec w6Scene2).2.1 w6HitRay 1 w6Rec2 w6MatScat one_pos (by rfl) rfl rfl

/-! ### Real-valued fragment: `math.Sqrt` users (claims C4, C7, C8)

`Sphere.Hit` and the vector norms genuinely use `math.Sqrt`, so this part
of `vec.go`/`geometry.go` is embedded over `ℝ` with `Real.sqrt`. -/

/-- `Vec3` over the reals, for the `math.Sqrt`-using code paths. -/
structure RVec3 where
  x : ℝ
  y : ℝ
  z : ℝ

/-- `Vec3.Add` over ℝ. -/
def RVec3.add (u v : RVec3) : RVec3 := ⟨u.x + v.x, u.y + v.y, u.z + v.z⟩

/-- `Vec3.Sub` over ℝ. -/
def RVec3.sub (u v : RVec3) : RVec3 := ⟨u.x - v.x, u.y - v.y, u.z - v.z⟩

/-- `Vec3.Scale` over ℝ. -/
def RVec3.scale (u : RVec3) (t : ℝ) : RVec3 := ⟨t * u.x, t * u.y, t * u.z⟩

/-- `Vec3.Neg` over ℝ. -/
def RVec3.neg (u : RVec3) : RVec3 := u.scale (-1)

/-- `Vec3.Dot` over ℝ. -/
def RVec3.dot (u v : RVec3) : ℝ := u.x * v.x + u.y * v.y + u.z * v.z

/-- `Vec3.SquareNorm` from `vec.go`: `u.Dot(u)`. -/
def RVec3.squareNorm (u : RVec3) : ℝ := u.dot u

/-- `Vec3.Norm` from `vec.go`: `math.Sqrt(u.SquareNorm())`. -/
noncomputable def RVec3.norm (u : RVec3) : ℝ := Real.sqrt u.squareNorm

/-- `Vec3.Div` from `vec.go` (lines 58-67): Go panics with
"division by zero" when the scalar is exactly `0`; the panic is modelled as
`none`. -/
noncomputable def RVec3.divP (u : RVec3) (t : ℝ) : Option RVec3 :=
  if t = 0 then none else some ⟨u.x / t, u.y / t, u.z / t⟩

/-- `Vec3.Unit` from `vec.go` (lines 111-113): `u.Div(u.Norm())`, so it
inherits `Div`'s failure exactly when the norm is zero. -/
noncomputable def RVec3.unit (u : RVec3) : Option RVec3 := u.divP u.norm

/-- `Ray` over ℝ (origin and direction; time and the random source play no
role in sphere intersection). -/
structure RRay where
  origin : RVec3
  direction : RVec3

/-- `Ray.At` over ℝ. -/
def RRay.at (r : RRay) (t : ℝ) : RVec3 := r.origin.add (r.direction.scale t)

/-- `Sphere` from `geometry.go`. -/
structure Sphere where
  center : RVec3
  radius : ℝ

/-- The hit record fields produced by `Sphere.Hit`.  The sphere also fills
texture coordinates `U, V` via `pixelHit` (spherical coordinates through
`atan2`/`asin`); those are transcendental and play no role in the claims,
so they are omitted from this record. -/
structure RHitRecord where
  distance : ℝ
  position : RVec3
  normal : RVec3

/-- The discriminant `b*b - a*c` computed by `Sphere.Hit`
(`geometry.go` lines 53-57). -/
def Sphere.discriminant (s : Sphere) (ray : RRay) : ℝ :=
  let oc := ray.origin.sub s.center
  let a := ray.direction.squareNorm
  let b := oc.dot ray.direction
  let c := oc.squareNorm - s.radius * s.radius
  b * b - a * c

/-- The first quadratic solution `(-b - √discriminant)/a` ("closest to
camera"). -/
noncomputable def Sphere.tNear (s : Sphere) (ray : RRay) : ℝ :=
  let oc := ray.origin.sub s.center
  let a := ray.direction.squareNorm
  let b := oc.dot ray.direction
  (-b - Real.sqrt (s.discriminant ray)) / a

/-- The second quadratic solution `(-b + √discriminant)/a` ("farthest from
camera"). -/
noncomputable def Sphere.tFar (s : Sphere) (ray : RRay) : ℝ :=
  let oc := ray.origin.sub s.center
  let a := ray.direction.squareNorm
  let b := oc.dot ray.direction
  (-b + Real.sqrt (s.discriminant ray)) / a

/-- `Sphere.Hit` from `geometry.go` (lines 52-84): when the discriminant is
positive, try the near root against the open range `(tMin, tMax)`
(`t < tMax && t > tMin`), fall back to the far root, otherwise report no
hit.  The normal is `pos.Sub(center).Div(radius)` — `Div` panics when the
radius is zero; that (unreachable under the claims' nonzero-radius premise)
branch is totalized with the zero vector. -/
noncomputable def Sphere.hit (s : Sphere) (ray : RRay) (tMin tMax : ℝ) : Option RHitRecord :=
  if 0 < s.discriminant ray then
    let t1 := s.tNear ray
    if t1 < tMax ∧ t1 > tMin then
      let pos := ray.at t1
      some ⟨t1, pos, ((pos.sub s.center).divP s.radius).getD ⟨0, 0, 0⟩⟩
    else
      let t2 := s.tFar ray
      if t2 < tMax ∧ t2 > tMin then
        let pos := ray.at t2
        some ⟨t2, pos, ((pos.sub s.center).divP s.radius).getD ⟨0, 0, 0⟩⟩
      else none
  else none

/-- For a nonzero scalar, `Div` is the componentwise quotient. -/
theorem divP_of_ne (u : RVec3) (t : ℝ) (h : t ≠ 0) :
    u.divP t = some ⟨u.x / t, u.y / t, u.z / t⟩ := by
  simp [RVec3.divP, h]

/-- Negating the radius leaves the discriminant unchanged (`c` uses
`radius*radius`). -/
theorem discriminant_neg_radius (s : Sphere) (ray : RRay) :
    (Sphere.mk s.center (-s.radius)).discriminant ray = s.discriminant ray := by
  simp only [Sphere.discriminant]
  ring

/-- Negating the radius leaves the near root unchanged. -/
theorem tNear_neg_radius (s : Sphere) (ray : RRay) :
    (Sphere.mk s.center (-s.radius)).tNear ray = s.tNear ray := by
  simp only [Sphere.tNear, discriminant_neg_radius]

/-- Negating the radius leaves the far root unchanged. -/
theorem tFar_neg_radius (s : Sphere) (ray : RRay) :
    (Sphere.mk s.center (-s.radius)).tFar ray = s.tFar ray := by
  simp only [Sphere.tFar, discriminant_neg_radius]

/-- Claim C4: with a nonzero radius and a positive discriminant,
`Sphere.Hit` returns the smaller root `(-b - √disc)/a` whenever it lies in
`(tMin, tMax)`, falls back to the larger root otherwise, and reports no hit
when neither root qualifies; every returned normal is
`(hitPosition - center)` divided componentwise by the **signed** radius,
and flipping the radius sign flips exactly the normal (same distance and
position) — the negative-radius sphere yields the inverted normal at the
same geometric hit point. -/
theorem sphereHit_root_selection_and_normal (s : Sphere) (ray : RRay) (tMin tMax : ℝ)
    (hrad : s.radius ≠ 0) (hdisc : 0 < s.discriminant ray) :
    ((s.tNear ray < tMax ∧ s.tNear ray > tMin) →
      s.hit ray tMin tMax = some ⟨s.tNear ray, ray.at (s.tNear ray),
        ⟨((ray.at (s.tNear ray)).sub s.center).x / s.radius,
         ((ray.at (s.tNear ray)).sub s.center).y / s.radius,
         ((ray.at (s.tNear ray)).sub s.center).z / s.radius⟩⟩)
    ∧ (¬ (s.tNear ray < tMax ∧ s.tNear ray > tMin) →
        (s.tFar ray < tMax ∧ s.tFar ray > tMin) →
        s.hit ray tMin tMax = some ⟨s.tFar ray, ray.at (s.tFar ray),
          ⟨((ray.at (s.tFar ray)).sub s.center).x / s.radius,
           ((ray.at (s.tFar ray)).sub s.center).y / s.radius,
           ((ray.at (s.tFar ray)).sub s.center).z / s.radius⟩⟩)
    ∧ (¬ (s.tNear ray < tMax ∧ s.tNear ray > tMin) →
        ¬ (s.tFar ray < tMax ∧ s.tFar ray > tMin) →
        s.hit ray tMin tMax = none)
    ∧ (Sphere.mk s.center (-s.radius)).hit ray tMin tMax =
        (s.hit ray tMin tMax).map
          (fun rec => ⟨rec.distance, rec.position, rec.normal.neg⟩) := by
  have hnegrad : -s.radius ≠ 0 := neg_ne_zero.mpr hrad
  refine ⟨?_, ?_, ?_, ?_⟩
  · intro hr
    simp only [Sphere.hit, if_pos hdisc, if_pos hr, divP_of_ne _ _ hrad, Option.getD_some]
  · intro hnear hfar
    simp only [Sphere.hit, if_pos hdisc, if_neg hnear, if_pos hfar,
      divP_of_ne _ _ hrad, Option.getD_some]
  · intro hnear hfar
    simp only [Sphere.hit, if_pos hdisc, if_neg hnear, if_neg hfar]
  · simp only [Sphere.hit, discriminant_neg_radius, tNear_neg_radius, tFar_neg_radius]
    split_ifs with h1 h2 <;>
      simp [Option.map_some', Option.map_none', divP_of_ne _ _ hrad,
        divP_of_ne _ _ hnegrad, Option.getD_some, RVec3.neg, RVec3.scale,
        div_neg, neg_one_mul]

/-- The concrete sphere used by the C4 and C7 witnesses. -/
def wSphere : Sphere := ⟨⟨0, 0, 0⟩, 1⟩

/-- A ray from `(0,0,-2)` aimed at the center of `wSphere`. -/
def wSRay : RRay := ⟨⟨0, 0, -2⟩, ⟨0, 0, 1⟩⟩

/-- The discriminant of `wSphere`/`wSRay` evaluates to `1`. -/
theorem wSphere_disc : wSphere.discriminant wSRay = 1 := by
  simp only [Sphere.discriminant, wSphere, wSRay, RVec3.sub, RVec3.dot, RVec3.squareNorm]
  norm_num

/-- The near root of `wSphere`/`wSRay` is `1`. -/
theorem wSphere_tNear : wSphere.tNear wSRay = 1 := by
  unfold Sphere.tNear
  rw [wSphere_disc, Real.sqrt_one]
  simp [wSphere, wSRay, RVec3.sub, RVec3.dot, RVec3.squareNorm]
  norm_num

/-- `wSphere.hit wSRay 0 10` hits at distance `1` (evaluated without using
any claim theorem, for reuse in witnesses). -/
theorem wSphere_hit_eval :
    wSphere.hit wSRay 0 10 = some ⟨1, ⟨0, 0, -1⟩, ⟨0, 0, -1⟩⟩ := by
  have h1 : (0:ℝ) < wSphere.discriminant wSRay := by
    rw [wSphere_disc]
    norm_num
  have h2 : wSphere.tNear wSRay < 10 ∧ wSphere.tNear wSRay > 0 := by
    rw [wSphere_tNear]
    norm_num
  simp only [Sphere.hit, if_pos h1, if_pos h2, wSphere_tNear]
  have hrad : (wSphere.radius : ℝ) ≠ 0 := by
    simp [wSphere]
  simp only [divP_of_ne _ _ hrad]
  simp [wSphere, wSRay, RRay.at, RVec3.add, RVec3.scale, RVec3.sub]
  norm_num

/-- Witness for C4: on `wSphere`/`wSRay` with window `(0, 10)` the near
root `1` is selected, with normal `(position - center)/radius`. -/
theorem sphereHit_root_selection_witness :
    wSphere.radius ≠ 0 ∧ 0 < wSphere.discriminant wSRay ∧
      wSphere.hit wSRay 0 10 = some ⟨wSphere.tNear wSRay, wSRay.at (wSphere.tNear wSRay),
        ⟨((wSRay.at (wSphere.tNear wSRay)).sub wSphere.center).x / wSphere.radius,
         ((wSRay.at (wSphere.tNear wSRay)).sub wSphere.center).y / wSphere.radius,
         ((wSRay.at (wSphere.tNear wSRay)).sub wSphere.center).z / wSphere.radius⟩⟩ := by
  have hrad : wSphere.radius ≠ 0 := by
    simp [wSphere]
  have hdisc : (0:ℝ) < wSphere.discriminant wSRay := by
    rw [wSphere_disc]
    norm_num
  refine ⟨hrad, hdisc, ?_⟩
  exact (sphereHit_root_selection_and_normal wSphere wSRay 0 10 hrad hdisc).1
    (by rw [wSphere_tNear]; norm_num)

/-- Claim C7 (amended): the rectangles return a crossing parameter in the
**closed** interval `[tMin, tMax]` — they reject only `t < tMin` or
`t > tMax`, so a parameter equal to either bound is accepted (see the
counterexample) — while `Sphere.Hit` returns a distance strictly inside
`(tMin, tMax)`. -/
theorem hit_distance_within_bounds :
    (∀ (x0 x1 y0 y1 k : ℚ) (ray : Ray) (tMin tMax : ℚ) (rec : HitRecord),
        (Geom.rectXY x0 x1 y0 y1 k).hit ray tMin tMax = some rec →
        tMin ≤ rec.distance ∧ rec.distance ≤ tMax)
    ∧ (∀ (x0 x1 z0 z1 k : ℚ) (ray : Ray) (tMin tMax : ℚ) (rec : HitRecord),
        (Geom.rectXZ x0 x1 z0 z1 k).hit ray tMin tMax = some rec →
        tMin ≤ rec.distance ∧ rec.distance ≤ tMax)
    ∧ (∀ (y0 y1 z0 z1 k : ℚ) (ray : Ray) (tMin tMax : ℚ) (rec : HitRecord),
        (Geom.rectYZ y0 y1 z0 z1 k).hit ray tMin tMax = some rec →
        tMin ≤ rec.distance ∧ rec.distance ≤ tMax)
    ∧ (∀ (s : Sphere) (ray : RRay) (tMin tMax : ℝ) (rec : RHitRecord),
        s.hit ray tMin tMax = some rec →
        tMin < rec.distance ∧ rec.distance < tMax) := by
  refine ⟨?_, ?_, ?_, ?_⟩
  · intro x0 x1 y0 y1 k ray tMin tMax rec h
    simp only [Geom.hit] at h
    split_ifs at h with h1 h2
    cases h
    push_neg at h1
    exact ⟨h1.1, h1.2⟩
  · intro x0 x1 z0 z1 k ray tMin tMax rec h
    simp only [Geom.hit] at h
    split_ifs at h with h1 h2
    cases h
    push_neg at h1
    exact ⟨h1.1, h1.2⟩
  · intro y0 y1 z0 z1 k ray tMin tMax rec h
    simp only [Geom.hit] at h
    split_ifs at h with h1 h2
    cases h
    push_neg at h1
    exact ⟨h1.1, h1.2⟩
  · intro s ray tMin tMax rec h
    simp only [Sphere.hit] at h
    split_ifs at h with h1 h2 h3
    · cases h
      exact ⟨h2.2, h2.1⟩
    · cases h
      exact ⟨h3.2, h3.1⟩

/-- The ray of the C7 counterexample: it crosses the plane `z = 1` at
exactly `t = 1`. -/
def c7Ray : Ray := ⟨⟨1/2, 1/2, 0⟩, ⟨0, 0, 1⟩, 0, ⟨0, 0⟩⟩

/-- Claim C7 counterexample: with window `(1, 2)`, `RectXY.Hit` accepts the
plane-crossing parameter `t = 1 = tMin` (its rejection test is
`t < tMin || t > tMax`), returning a record whose distance is **not**
strictly greater than `tMin` — the claim "rejects a parameter equal to
tMin" is false. -/
theorem rectXY_accepts_boundary_parameter :
    ¬ (∀ rec : HitRecord, (Geom.rectXY 0 1 0 1 1).hit c7Ray 1 2 = some rec →
        1 < rec.distance ∧ rec.distance < 2) := by
  intro h
  have hrec := h ⟨1, ⟨1/2, 1/2, 1⟩, ⟨0, 0, 1⟩, none, 1/2, 1/2⟩ (by rfl)
  exact lt_irrefl (1 : ℚ) hrec.1

/-- Witness for the amended C7: the rectangle bounds hold at a concrete
boundary-accepting hit, and the sphere bounds hold at the concrete
`wSphere` hit. -/
theorem hit_distance_within_bounds_witness :
    ((1:ℚ) ≤ 1 ∧ (1:ℚ) ≤ 2) ∧ ((0:ℝ) < 1 ∧ (1:ℝ) < 10) := by
  constructor
  · exact hit_distance_within_bounds.1 0 1 0 1 1 c7Ray 1 2
      ⟨1, ⟨1/2, 1/2, 1⟩, ⟨0, 0, 1⟩, none, 1/2, 1/2⟩ (by rfl)
  · exact hit_distance_within_bounds.2.2.2 wSphere wSRay 0 10
      ⟨1, ⟨0, 0, -1⟩, ⟨0, 0, -1⟩⟩ wSphere_hit_eval

/-- Claim C8: `Vec3.Div` fails exactly on the zero scalar and otherwise is
the componentwise quotient; `Vec3.Unit` divides by the Euclidean norm and
so fails exactly when the norm is zero. -/
theorem div_fails_iff_zero_scalar :
    (∀ (u : RVec3) (t : ℝ), u.divP t = none ↔ t = 0)
    ∧ (∀ (u : RVec3) (t : ℝ), t ≠ 0 → u.divP t = some ⟨u.x / t, u.y / t, u.z / t⟩)
    ∧ (∀ u : RVec3, u.unit = none ↔ u.norm = 0)
    ∧ (∀ u : RVec3, u.norm ≠ 0 →
        u.unit = some ⟨u.x / u.norm, u.y / u.norm, u.z / u.norm⟩) := by
  have hdiv : ∀ (u : RVec3) (t : ℝ), u.divP t = none ↔ t = 0 := by
    intro u t
    unfold RVec3.divP
    split_ifs with h
    · simp [h]
    · simp [h]
  refine ⟨hdiv, ?_, ?_, ?_⟩
  · intro u t h
    exact divP_of_ne u t h
  · intro u
    exact hdiv u u.norm
  · intro u h
    exact divP_of_ne u u.norm h

/-- The norm of `(3,0,4)` is `5`. -/
theorem wNorm_eval : (⟨3, 0, 4⟩ : RVec3).norm = 5 := by
  unfold RVec3.norm RVec3.squareNorm RVec3.dot
  rw [show ((3:ℝ) * 3 + 0 * 0 + 4 * 4) = 5 ^ 2 by norm_num]
  exact Real.sqrt_sq (by norm_num)

/-- Witness for C8: dividing `(3,0,4)` by the nonzero scalar `2`, and
normalizing the nonzero-norm vector `(3,0,4)`. -/
theorem div_fails_iff_zero_scalar_witness :
    ((2:ℝ) ≠ 0 ∧ (⟨3, 0, 4⟩ : RVec3).divP 2 = some ⟨3 / 2, 0 / 2, 4 / 2⟩)
    ∧ ((⟨3, 0, 4⟩ : RVec3).norm ≠ 0 ∧
        (⟨3, 0, 4⟩ : RVec3).unit = some ⟨3 / 5, 0 / 5, 4 / 5⟩) := by
  have hn : (⟨3, 0, 4⟩ : RVec3).norm ≠ 0 := by
    rw [wNorm_eval]
    norm_num
  refine ⟨⟨by norm_num, ?_⟩, hn, ?_⟩
  · exact div_fails_iff_zero_scalar.2.1 ⟨3, 0, 4⟩ 2 (by norm_num)
  · have h := div_fails_iff_zero_scalar.2.2.2 ⟨3, 0, 4⟩ hn
    rw [wNorm_eval] at h
    exact h

/-! ### The parallel renderer (claim C9)

`Scene.Render` (`geometry.go` lines 1491-1542) runs one goroutine per
scanline `j`, each with its own generator `rand.New(rand.NewSource(42*j))`,
and each writing only the pixels `(i, height-j-1)` of its own output row.
The float/transcendental leaves of the per-sample pipeline are abstracted
into an oracle of deterministic functions, and the concurrent writes into
the shared image become a list of `(position, color)` write events whose
application order models the scheduler. -/

/-- An RGBA pixel as produced by `Vec3.GetColor`. -/
abbrev Color := ℕ × ℕ × ℕ × ℕ

/-- The deterministic float-level collaborators of the render loop:
`rnd.Float64()` draws (as a function of the generator state),
`RandDisk(rnd)` (which uses trigonometry), and `Vec3.GetColor` (which
gamma-corrects with `math.Sqrt` and quantizes).  Theorems quantify over all
oracles, so nothing depends on their concrete values. -/
structure RenderOracle where
  randFloat : RandSrc → ℚ × RandSrc
  randDisk : RandSrc → Vec3 × RandSrc
  getColor : Vec3 → ℤ → Color

/-- `rand.New(rand.NewSource(seed))`: a fresh generator state at position
zero of the stream determined by the seed. -/
def mkRand (seed : ℤ) : RandSrc := ⟨seed, 0⟩

/-- `Camera.RayTo` from `camera.go`: sample the lens disk, offset the
origin, aim at the viewport point for `(s, t)`, stamp the time uniformly
from the shutter interval, and hand the generator to the ray.  The
generator state is threaded explicitly (Go mutates the shared `*rand.Rand`
in place). -/
def Camera.rayTo (c : Camera) (o : RenderOracle) (s t : ℚ) (rnd : RandSrc) : Ray × RandSrc :=
  let dr := o.randDisk rnd
  let rd := dr.1.scale c.lensRadius
  let offset := (c.u.scale rd.x).add (c.v.scale rd.y)
  let hOffset := c.horizontal.scale s
  let vOffset := c.vertical.scale t
  let fr := o.randFloat dr.2
  (⟨c.origin.add offset,
    (((c.corner.add hOffset).add vOffset).sub c.origin).sub offset,
    fr.1 * (c.tStop - c.tStart) + c.tStart, fr.2⟩, fr.2)

/-- The inner `for k < pixelSamples` loop of `Render`: accumulate
`pixelSamples` jittered radiance samples into `pixel`, threading the row's
generator. -/
def sampleLoop (o : RenderOracle) (s : Scene) (width height : ℕ) (maxScatter : ℤ)
    (i j : ℕ) : ℕ → Vec3 → RandSrc → Vec3 × RandSrc
  | 0, pixel, rnd => (pixel, rnd)
  | k + 1, pixel, rnd =>
    let f1 := o.randFloat rnd
    let u := ((i : ℚ) + f1.1) / (width : ℚ)
    let f2 := o.randFloat f1.2
    let v := ((j : ℚ) + f2.1) / (height : ℚ)
    let rr := s.camera.rayTo o u v f2.2
    sampleLoop o s width height maxScatter i j k
      (pixel.add (s.rayColor rr.1 maxScatter)) rr.2

/-- The `for i < width` loop of one scanline worker: for each column,
average the samples, convert with `GetColor`, and emit a write to pixel
`(i, height-j-1)` of the shared image. -/
def rowLoop (o : RenderOracle) (s : Scene) (width height : ℕ)
    (pixelSamples maxScatter : ℤ) (j : ℕ) :
    List ℕ → RandSrc → List ((ℕ × ℕ) × Color)
  | [], _ => []
  | i :: is, rnd =>
    let pr := sampleLoop o s width height maxScatter i j pixelSamples.toNat BLACK rnd
    ((i, height - j - 1), o.getColor pr.1 pixelSamples) ::
      rowLoop o s width height pixelSamples maxScatter j is pr.2

/-- All writes of the scanline-`j` worker: its generator is seeded with
`42 * j` and it walks the columns `0, …, width-1`. -/
def workerWrites (o : RenderOracle) (s : Scene) (width height : ℕ)
    (pixelSamples maxScatter : ℤ) (j : ℕ) : List ((ℕ × ℕ) × Color) :=
  rowLoop o s width height pixelSamples maxScatter j (List.range width)
    (mkRand (42 * (j : ℤ)))

/-- The canonical (row-major) sequence of all workers' writes. -/
def renderWrites (o : RenderOracle) (s : Scene) (width height : ℕ)
    (pixelSamples maxScatter : ℤ) : List ((ℕ × ℕ) × Color) :=
  ((List.range height).map (workerWrites o s width height pixelSamples maxScatter)).flatten

/-- One write into the shared image buffer (`img.Set`). -/
def writeStep (img : (ℕ × ℕ) → Option Color) (w : (ℕ × ℕ) × Color) :
    (ℕ × ℕ) → Option Color :=
  fun p => if p = w.1 then some w.2 else img p

/-- Replay a schedule of writes (one interleaving of the workers' events)
into an initially empty image. -/
def applyWrites (l : List ((ℕ × ℕ) × Color)) : (ℕ × ℕ) → Option Color :=
  l.foldl writeStep (fun _ => none)

/-- `Scene.Render`: after applying the `<= 0` defaults for sample count and
bounce budget, the produced image is the replay of the canonical write
sequence.  (The `height == -1` aspect-ratio defaulting branch takes
explicit sizes here; the claims pass explicit heights.) -/
def Scene.render (o : RenderOracle) (s : Scene) (width height : ℕ)
    (pixelSamples maxScatter : ℤ) : (ℕ × ℕ) → Option Color :=
  let maxScatter := if maxScatter ≤ 0 then 50 else maxScatter
  let pixelSamples := if pixelSamples ≤ 0 then 50 else pixelSamples
  applyWrites (renderWrites o s width height pixelSamples maxScatter)

/-- Distinct target pixels make write events commute. -/
theorem writeStep_comm (img : (ℕ × ℕ) → Option Color) (w w' : (ℕ × ℕ) × Color)
    (h : w.1 ≠ w'.1) : writeStep (writeStep img w) w' = writeStep (writeStep img w') w := by
  funext p
  unfold writeStep
  split_ifs with h1 h2 <;> try rfl
  exact absurd (h2 ▸ h1) h

/-- Replaying two schedules that are permutations of each other yields the
same image, provided no two writes target the same pixel. -/
theorem foldl_writeStep_perm {l₁ l₂ : List ((ℕ × ℕ) × Color)} (h : l₁.Perm l₂)
    (hnd : (l₁.map Prod.fst).Nodup) :
    ∀ init, l₁.foldl writeStep init = l₂.foldl writeStep init := by
  induction h with
  | nil =>
    intro init
    rfl
  | cons x h ih =>
    intro init
    simp only [List.foldl_cons]
    simp only [List.map_cons, List.nodup_cons] at hnd
    exact ih hnd.2 _
  | swap x y l =>
    intro init
    simp only [List.foldl_cons]
    simp only [List.map_cons, List.nodup_cons, List.mem_cons] at hnd
    have hxy : y.1 ≠ x.1 := fun hcontra => hnd.1 (Or.inl hcontra)
    rw [writeStep_comm init y x hxy]
  | trans h₁ h₂ ih₁ ih₂ =>
    intro init
    rw [ih₁ hnd init]
    exact ih₂ (((h₁.map Prod.fst).nodup_iff).mp hnd) init

/-- The `j`-th worker writes exactly to the columns of row `height-j-1`,
one write per column, whatever its generator state. -/
theorem rowLoop_keys (o : RenderOracle) (s : Scene) (width height : ℕ)
    (pixelSamples maxScatter : ℤ) (j : ℕ) :
    ∀ (is : List ℕ) (rnd : RandSrc),
      (rowLoop o s width height pixelSamples maxScatter j is rnd).map Prod.fst =
        is.map (fun i => (i, height - j - 1)) := by
  intro is
  induction is with
  | nil =>
    intro rnd
    rfl
  | cons i is ih =>
    intro rnd
    simp only [rowLoop, List.map_cons, ih]

/-- No two writes of a full render target the same pixel: within a row the
columns differ, and different workers own different rows. -/
theorem renderWrites_keys_nodup (o : RenderOracle) (s : Scene) (width height : ℕ)
    (pixelSamples maxScatter : ℤ) :
    ((renderWrites o s width height pixelSamples maxScatter).map Prod.fst).Nodup := by
  unfold renderWrites
  rw [List.map_flatten, List.map_map, List.nodup_flatten]
  constructor
  · intro l' hl'
    simp only [List.mem_map, Function.comp_apply] at hl'
    obtain ⟨j, _, rfl⟩ := hl'
    unfold workerWrites
    rw [rowLoop_keys]
    refine (List.nodup_range width).map ?_
    intro a b hab
    simpa using congrArg Prod.fst hab
  · rw [List.pairwise_map]
    refine (List.pairwise_lt_range height).imp_of_mem ?_
    intro a b ha hb hlt
    simp only [Function.comp_apply]
    unfold workerWrites
    rw [rowLoop_keys, rowLoop_keys]
    intro x hxa hxb
    simp only [List.mem_map] at hxa hxb
    obtain ⟨i, hi, rfl⟩ := hxa
    obtain ⟨i2, hi2, heq⟩ := hxb
    simp only [Prod.mk.injEq] at heq
    simp only [List.mem_range] at ha hb
    omega

/-- Claim C9: every schedule of the render's write events — any
interleaving of the scanline workers' writes, i.e. any permutation of the
canonical write sequence — replays to the same image, so two runs of
`Render` on the same scene and parameters are pixel-identical regardless
of goroutine scheduling; and each worker `j` (whose generator is seeded
with `42*j` in `workerWrites`) writes exactly one pixel per column of its
own row `height-j-1`, never touching another row. -/
theorem render_schedule_independent (o : RenderOracle) (s : Scene)
    (width height : ℕ) (pixelSamples maxScatter : ℤ)
    (l₁ l₂ : List ((ℕ × ℕ) × Color))
    (h₁ : l₁.Perm (renderWrites o s width height pixelSamples maxScatter))
    (h₂ : l₂.Perm (renderWrites o s width height pixelSamples maxScatter)) :
    applyWrites l₁ = applyWrites l₂
    ∧ ∀ j : ℕ, (workerWrites o s width height pixelSamples maxScatter j).map Prod.fst =
        (List.range width).map (fun i => (i, height - j - 1)) := by
  constructor
  · have hnd := renderWrites_keys_nodup o s width height pixelSamples maxScatter
    have hnd₁ : (l₁.map Prod.fst).Nodup := ((h₁.map Prod.fst).nodup_iff).mpr hnd
    unfold applyWrites
    rw [foldl_writeStep_perm (h₁.trans h₂.symm) hnd₁]
  · intro j
    exact rowLoop_keys o s width height pixelSamples maxScatter j (List.range width) _

/-- A trivial oracle for the C9 witness. -/
def w9Oracle : RenderOracle :=
  ⟨fun r => (0, r), fun r => (BLACK, r), fun _ _ => (7, 7, 7, 255)⟩

/-- Witness for C9: on a concrete 1×2 render, replaying the canonical
schedule and replaying it reversed produce the same image, and worker 0
writes exactly pixel `(0, 1)`. -/
theorem render_schedule_independent_witness :
    applyWrites (renderWrites w9Oracle w6Scene 1 2 1 1) =
      applyWrites ((renderWrites w9Oracle w6Scene 1 2 1 1).reverse)
    ∧ (workerWrites w9Oracle w6Scene 1 2 1 1 0).map Prod.fst =
        (List.range 1).map (fun i => (i, 2 - 0 - 1)) := by
  have h := render_schedule_independent w9Oracle w6Scene 1 2 1 1
    (renderWrites w9Oracle w6Scene 1 2 1 1)
    ((renderWrites w9Oracle w6Scene 1 2 1 1).reverse)
    (List.Perm.refl _) (List.reverse_perm _)
  exact ⟨h.1, h.2 0⟩

end GoTrace
